import Mathlib

/-!
Shallow embedding of the db2-postgres-replicate pipeline.

Source files embedded here:
  * `index.js` / `src/utils.js` : `mapDb2ToPostgresType`, `formatValue`, `chunkArray`
  * `src/db2.js`    : `getColumnMetadata`, `getPrimaryKeys`, `getDb2RowCount`,
                      `fetchChunk`, `getViewDefinition`
  * `src/postgres.js`: `insertIntoPostgres`, `createView`, `getPostgresRowCount`,
                      `truncateTable`, `ensureTableExists`
  * `src/replicate.js`: `replicateTable`, `replicateView`, `replicateAll`

Database interactions are modelled by explicit environments: every catalog
query, row fetch and SQL execution is represented by its outcome
(`Except DbError _`), supplied as data.  The control flow of the JavaScript
functions — branch order, which errors are caught where, which calls degrade
to empty results — is translated statement by statement.
-/

namespace Db2Pg

/-! ## JavaScript-style string primitives

The source manipulates JS strings via `trim`, `replace(/…/g, …)`,
`includes`, `toUpperCase`, `indexOf` and `substring`.  These are modelled
character-by-character (ASCII-faithful; the SQL texts involved are ASCII).
-/

/-- Whitespace characters removed by `String.prototype.trim`. -/
def isJsSpace (c : Char) : Bool := c = ' ' || c = '\t' || c = '\n' || c = '\r'

/-- Remove leading and trailing whitespace of a character list. -/
def trimChars (cs : List Char) : List Char :=
  ((cs.dropWhile isJsSpace).reverse.dropWhile isJsSpace).reverse

/-- Model of `s.trim()`. -/
def jsTrim (s : String) : String := String.mk (trimChars s.toList)

/-- Worker for global replacement: scan left to right, on a match continue
after the matched occurrence (JS `replace` with the `g` flag).  The fuel is
the length of the scanned text, which the scan consumes one character or one
match (at least one character) at a time. -/
def replaceAllAux (p : Char) (ps repl : List Char) : Nat → List Char → List Char
  | _, [] => []
  | 0, cs => cs
  | f + 1, c :: rest =>
    if (p :: ps).isPrefixOf (c :: rest) then
      repl ++ replaceAllAux p ps repl f (rest.drop ps.length)
    else
      c :: replaceAllAux p ps repl f rest

/-- Model of `s.replace(/pat/g, repl)` for a literal nonempty pattern. -/
def jsReplaceAll (s pat repl : String) : String :=
  match pat.toList with
  | [] => s
  | p :: ps => String.mk (replaceAllAux p ps repl.toList s.length s.toList)

/-- Model of `s.includes(pat)`. -/
def includes (s pat : String) : Bool :=
  s.toList.tails.any (fun t => pat.toList.isPrefixOf t)

/-- Model of `s.substring(n)` (drop the first `n` characters). -/
def jsSubstringFrom (s : String) (n : Nat) : String := String.mk (s.toList.drop n)

/-- Remove the first case-insensitive occurrence of `pat` (given uppercased),
JS `s.replace(/pat/i, '')`.  Fuel is the length of the scanned text. -/
def removeFirstCI (pat : List Char) : Nat → List Char → List Char
  | _, [] => []
  | 0, cs => cs
  | f + 1, c :: rest =>
    if ((c :: rest).take pat.length).map Char.toUpper = pat then
      (c :: rest).drop pat.length
    else
      c :: removeFirstCI pat f rest

/-! ## Core data model -/

/-- A JavaScript value as it travels through the pipeline: `null`, a string,
a number, or `undefined` (the result of reading an absent object key). -/
inductive JsValue
  | vnull
  | vstr (s : String)
  | vnum (n : Int)
  | vundef
deriving DecidableEq, Repr

/-- How a `JsValue` renders inside a template literal. -/
def jsToString : JsValue → String
  | .vnull => "null"
  | .vstr s => s
  | .vnum n => toString n
  | .vundef => "undefined"

/-- A database-level error (the `error` object rejected by a driver call). -/
structure DbError where
  msg : String
deriving DecidableEq, Repr

/-- Column descriptor as built by `getColumnMetadata`: trimmed name plus the
already-translated destination type string. -/
structure Column where
  name : String
  type : String
deriving DecidableEq, Repr

/-- A row as a JS object: association list from column name to value. -/
def Row : Type := List (String × JsValue)

instance : DecidableEq Row := by unfold Row; exact inferInstance

/-- Model of `row[key]`: first binding wins, absent keys read `undefined`. -/
def rowGet (r : Row) (k : String) : JsValue :=
  match r.find? (fun p => p.1 = k) with
  | some p => p.2
  | none => JsValue.vundef

/-! ## `utils.js` -/

/-- `mapDb2ToPostgresType` (utils.js): fixed lookup from DB2 type names to
PostgreSQL type strings; unknown types fall back to `TEXT`. -/
def mapDb2ToPostgresType (db2Type : String) (length : Nat) : String :=
  let typeMapping : List (String × String) :=
    [ ("INTEGER", "INTEGER")
    , ("SMALLINT", "SMALLINT")
    , ("BIGINT", "BIGINT")
    , ("DECIMAL", "DECIMAL(" ++ toString length ++ ",2)")
    , ("DOUBLE", "DOUBLE PRECISION")
    , ("REAL", "REAL")
    , ("CHAR", "TEXT")
    , ("VARCHAR", "TEXT")
    , ("CLOB", "TEXT")
    , ("DATE", "DATE")
    , ("TIMESTAMP", "TIMESTAMP")
    ]
  match typeMapping.lookup db2Type with
  | some t => t
  | none => "TEXT"

/-- `formatValue` (utils.js), branch for branch:
`null`/empty string give `NULL`; text-like types quote with quote doubling
after trimming; temporal types quote verbatim; numeric types pass the value
through unquoted; anything else is quoted verbatim. -/
def formatValue (value : JsValue) (type : String) : String :=
  if value = JsValue.vnull ∨ value = JsValue.vstr "" then "NULL"
  else if includes type "TEXT" || includes type "CHAR" then
    "'" ++ jsReplaceAll (jsTrim (jsToString value)) "'" "''" ++ "'"
  else if includes type "TIMESTAMP" || includes type "DATE" then
    "'" ++ jsToString value ++ "'"
  else if includes type "INTEGER" || includes type "SMALLINT" ||
          includes type "BIGINT" || includes type "DECIMAL" ||
          includes type "NUMERIC" || includes type "DOUBLE" ||
          includes type "REAL" then
    jsToString value
  else "'" ++ jsToString value ++ "'"

/-- Worker for `chunkArray`: the JS loop `for (i = 0; i < len; i += size)`
pushes `slice(i, i + size)` each round.  Each executed round removes at
least one element when `size ≥ 1`, so fuel `array.length` suffices; the
source diverges for `size = 0` and is never invoked that way. -/
def chunkArrayAux : Nat → List α → Nat → List (List α)
  | _, [], _ => []
  | 0, _, _ => []
  | f + 1, l, size => l.take size :: chunkArrayAux f (l.drop size) size

/-- `chunkArray` (utils.js): split a list into consecutive slices of at most
`size` elements. -/
def chunkArray (array : List α) (size : Nat) : List (List α) :=
  chunkArrayAux array.length array size

/-! ## `db2.js` — Source Accessor

Each catalog query is modelled by its outcome (`Except DbError _`).  The
JavaScript functions catch driver errors internally and degrade to an
empty/zero result; that control flow is reproduced here.
-/

/-- One row of the `SYSCAT.COLUMNS` query issued by `getColumnMetadata`. -/
structure RawCol where
  colname : String
  typename : String
  length : Nat
deriving DecidableEq, Repr

/-- `getColumnMetadata` (db2.js): map catalog rows to trimmed-name/translated
type descriptors; the surrounding try/catch turns a failed query into `[]`. -/
def getColumnMetadata (res : Except DbError (List RawCol)) : List Column :=
  match res with
  | .error _ => []
  | .ok rows =>
    rows.map (fun col =>
      { name := jsTrim col.colname
        type := mapDb2ToPostgresType col.typename col.length })

/-- `getPrimaryKeys` (db2.js): trimmed key column names in catalog key-sequence
order; a failed query degrades to `[]`. -/
def getPrimaryKeys (res : Except DbError (List String)) : List String :=
  match res with
  | .error _ => []
  | .ok rows => rows.map jsTrim

/-- `getDb2RowCount` (db2.js): first row's `COUNT` if the result is nonempty
and the value truthy (a count of `0` is falsy in JS), else `0`; a failed
query degrades to `0`. -/
def getDb2RowCount (res : Except DbError (List Nat)) : Nat :=
  match res with
  | .error _ => 0
  | .ok [] => 0
  | .ok (c :: _) => if c = 0 then 0 else c

/-- `fetchChunk` (db2.js): one `OFFSET offset ROWS FETCH FIRST chunkSize ROWS
ONLY` page over the source table.  `sourceRows` is the table in the order the
(primary-key `ORDER BY`) query returns it; `fetchFails offset` says whether
the query at that offset errors, in which case the function's own try/catch
returns `[]` — `fetchChunk` never throws. -/
def fetchChunk (sourceRows : List Row) (fetchFails : Nat → Bool)
    (chunkSize offset : Nat) : List Row :=
  if fetchFails offset then [] else (sourceRows.drop offset).take chunkSize

/-- Position of the first case-insensitive occurrence of `AS` in a character
list (model of `text.toUpperCase().indexOf('AS')`). -/
def idxOfAS : List Char → Option Nat
  | [] => none
  | c :: rest =>
    match rest with
    | [] => none
    | d :: _ =>
      if c.toUpper = 'A' ∧ d.toUpper = 'S' then some 0
      else (idxOfAS rest).map (fun i => i + 1)

/-- The literal global substitution `getViewDefinition` applies to the
extracted SELECT text. -/
def qualifyXref (s : String) : String :=
  jsReplaceAll s "EDM_COMP.LOCN_COMPANY_XREF" "\"EDM_COMP\".\"LOCN_COMPANY_XREF\""

/-- `getViewDefinition` (db2.js): given the `SYSCAT.VIEWS` query outcome
(list of `TEXT` values), return the text after the first case-insensitive
occurrence of `AS`, trimmed, with the known cross-schema reference
fully-qualified; `""` when the query fails, matches no row, the text is
empty (falsy), or contains no `AS`. -/
def getViewDefinition (res : Except DbError (List String)) : String :=
  match res with
  | .error _ => ""
  | .ok [] => ""
  | .ok (text :: _) =>
    if text = "" then ""
    else
      match idxOfAS text.toList with
      | none => ""
      | some i => qualifyXref (jsTrim (jsSubstringFrom text (i + 2)))

/-! ## `postgres.js` — Destination Accessor -/

/-- One `pgClient.query(text, params)` call as issued by `insertIntoPostgres`.
`tuples` records the number of `VALUES` tuples of the statement (determined
by the placeholder list; kept explicitly so the affected-row count of a
successful standard-SQL insert can be expressed without re-parsing `text`). -/
structure IssuedQuery where
  text : String
  params : List JsValue
  tuples : Nat
deriving DecidableEq, Repr

/-- Build one sub-batch's multi-row INSERT exactly as `insertIntoPostgres`
does: quoted column list, placeholders `$(idx + 1 + columns.length * j)`
(`batch.indexOf(row)` in the source resolves to the row's position `j`
because driver rows are reference-distinct objects), and the flattened
parameter list `batch.flatMap(row => columns.map(col => row[col.name]))`. -/
def buildInsertQuery (schema table : String) (columns : List Column)
    (batch : List Row) : IssuedQuery :=
  let columnNames :=
    String.intercalate "," (columns.map (fun col => "\"" ++ col.name ++ "\""))
  let valuePlaceholders :=
    String.intercalate ","
      (batch.mapIdx (fun j _ =>
        "(" ++
        String.intercalate ","
          (columns.mapIdx (fun idx _ =>
            "$" ++ toString (idx + 1 + columns.length * j))) ++
        ")"))
  let values :=
    (batch.map (fun row => columns.map (fun col => rowGet row col.name))).flatten
  { text := "INSERT INTO \"" ++ schema ++ "\".\"" ++ table ++ "\" (" ++
      columnNames ++ ") VALUES " ++ valuePlaceholders
    params := values
    tuples := batch.length }

/-- The batching loop body of `insertIntoPostgres` over the sub-batches:
skip a sub-batch when its parameter list is empty, skip it when the
parameter count disagrees with `columns.length * batch.length` (both logged
in the source), otherwise execute; a driver error is re-thrown, a success
adds the reported row count.  Returns the outcome together with the queries
actually issued. -/
def insLoop (pgExec : IssuedQuery → Except DbError Nat)
    (schema table : String) (columns : List Column) :
    List (List Row) → Nat → List IssuedQuery →
    Except DbError Nat × List IssuedQuery
  | [], total, issued => (.ok total, issued)
  | batch :: rest, total, issued =>
    let q := buildInsertQuery schema table columns batch
    if q.params.length = 0 then
      insLoop pgExec schema table columns rest total issued
    else if q.params.length ≠ columns.length * batch.length then
      insLoop pgExec schema table columns rest total issued
    else
      match pgExec q with
      | .ok rc => insLoop pgExec schema table columns rest (total + rc) (issued ++ [q])
      | .error e => (.error e, issued ++ [q])

/-- `insertIntoPostgres` (postgres.js): an empty chunk returns `0` without
touching the database; otherwise the chunk is cut into sub-batches of at
most 1000 rows (the `for (i… i += batchSize) slice(i, i + batchSize)` loop
is the same construction as `chunkArray`) and processed by `insLoop`. -/
def insertIntoPostgres (pgExec : IssuedQuery → Except DbError Nat)
    (schema table : String) (columns : List Column) (chunk : List Row) :
    Except DbError Nat × List IssuedQuery :=
  if chunk.length = 0 then (.ok 0, [])
  else insLoop pgExec schema table columns (chunkArray chunk 1000) 0 []

/-- `getPostgresRowCount` (postgres.js): the destination count, or the `-1`
sentinel when its query fails (caught internally). -/
def getPostgresRowCount (res : Except DbError Nat) : Int :=
  match res with
  | .error _ => -1
  | .ok n => (n : Int)

/-- A JavaScript-level exception: either a rethrown database error or a
`ReferenceError` raised by reading an identifier that is not in scope. -/
inductive JsError
  | db (e : DbError)
  | referenceError (ident : String)
deriving DecidableEq, Repr

/-- The `message` property of a `JsError`. -/
def jsErrMessage : JsError → String
  | .db e => e.msg
  | .referenceError ident => ident ++ " is not defined"

/-- Identifiers visible inside `createView`'s `catch` block: the function
parameters and the caught `error`.  `query` is declared with `const` inside
the `try` block, so it is not among them. -/
def createViewCatchScope : List String :=
  ["pgClient", "schema", "viewName", "viewDefinition", "error"]

/-- Model of reading an identifier: a `ReferenceError` when it is not in
scope. -/
def lookupIdent (scope : List String) (ident : String) : Except JsError Unit :=
  if ident ∈ scope then .ok () else .error (.referenceError ident)

/-- The `CREATE OR REPLACE VIEW` statement composed by `createView`: the
first case-insensitive `WITH UR` is stripped from the source view text
(`viewDefinition.replace(/WITH UR/i, '')`) and the remainder re-wrapped. -/
def composedViewQuery (schema viewName viewDefinition : String) : String :=
  "CREATE OR REPLACE VIEW \"" ++ schema ++ "\".\"" ++ viewName ++ "\" AS " ++
    String.mk (removeFirstCI "WITH UR".toList viewDefinition.length
      viewDefinition.toList)

/-- `createView` (postgres.js): strip the first case-insensitive `WITH UR`,
build and log the `CREATE OR REPLACE VIEW` statement, execute it.  On a
driver error the `catch` block logs the failure message and then reads
`query` for the second diagnostic line; that read is evaluated against
`createViewCatchScope`.  Returns the log lines and the outcome. -/
def createView (pgExecView : Except DbError Unit)
    (schema viewName viewDefinition : String) :
    List String × Except JsError Unit :=
  let query := composedViewQuery schema viewName viewDefinition
  let logs := ["Composed Query:\n" ++ query]
  match pgExecView with
  | .ok _ => (logs ++ ["View created: " ++ schema ++ "." ++ viewName], .ok ())
  | .error e =>
    let l1 := "Failed to create view " ++ schema ++ "." ++ viewName ++ ": " ++ e.msg
    match lookupIdent createViewCatchScope "query" with
    | .error re => (logs ++ [l1], .error re)
    | .ok _ =>
      (logs ++ [l1, "Failing Query:\n" ++ query], .error (.db e))

/-! ## `replicate.js` — Replication Orchestrator -/

/-- The replication configuration bits the orchestrator consults. -/
structure Config where
  chunkSize : Nat
  reset : Bool
deriving DecidableEq, Repr

/-- Everything the outside world answers during one table's processing.
Each field is the outcome of the corresponding database interaction, in the
shape the JavaScript code observes it. -/
structure TableEnv where
  /-- `SYSCAT.COLUMNS` query outcome consumed by `getColumnMetadata`. -/
  colCatalog : Except DbError (List RawCol)
  /-- `SYSCAT.KEYCOLUSE` query outcome consumed by `getPrimaryKeys`. -/
  pkCatalog : Except DbError (List String)
  /-- Outcome of `ensureTableExists`'s `CREATE TABLE IF NOT EXISTS`
  (the function logs and re-throws on error). -/
  ensureTable : Except DbError Unit
  /-- `SELECT COUNT(*)` outcome consumed by `getDb2RowCount`. -/
  countCatalog : Except DbError (List Nat)
  /-- The source table in the order the paged queries return it. -/
  sourceRows : List Row
  /-- Destination `SELECT COUNT(*)` outcome consumed by
  `getPostgresRowCount`. -/
  pgCount : Except DbError Nat
  /-- Outcome of `truncateTable` (logs and re-throws on error). -/
  truncate : Except DbError Unit
  /-- Whether the paged fetch at a given offset errors
  (`fetchChunk` then degrades to `[]`). -/
  fetchFails : Nat → Bool
  /-- Executor for the INSERT statements of `insertIntoPostgres`. -/
  pgExec : IssuedQuery → Except DbError Nat

/-- Observable actions of one table's processing, in program order. -/
inductive Ev
  /-- `ensureTableExists` was invoked (CREATE TABLE IF NOT EXISTS). -/
  | createTable (schema table : String) (cols : List Column)
  /-- `truncateTable` was invoked. -/
  | truncate (schema table : String)
  /-- `fetchChunk` was invoked at `offset` and returned `got` rows. -/
  | fetch (offset got : Nat)
  /-- `insertIntoPostgres` returned normally, reporting `n` inserted rows. -/
  | insertedChunk (n : Nat)
  /-- The loop's `catch` fired (`spinner.fail`) and the loop was abandoned. -/
  | loopFailed (e : DbError)
deriving DecidableEq, Repr

/-- The `while (hasMoreData)` loop of `replicateTable`: fetch a page, stop on
an empty one, otherwise insert it and advance `offset` by `chunkSize`; an
exception from the insert is caught by the loop's `catch` and breaks the
loop.  Returns the event trace, `totalFetched`, and the sum of the per-chunk
inserted counts.  Fuel: each non-final round consumes at least `1` source
row position (`chunk ≠ []` forces `offset < sourceRows.length` and
`chunkSize ≥ 1`), so `sourceRows.length + 1` rounds always suffice. -/
def transferLoopAux (env : TableEnv) (cfg : Config) (schema table : String)
    (columns : List Column) : Nat → Nat → List Ev × Nat × Nat
  | 0, _ => ([], 0, 0)
  | f + 1, offset =>
    let chunk := fetchChunk env.sourceRows env.fetchFails cfg.chunkSize offset
    if chunk.length = 0 then ([.fetch offset 0], 0, 0)
    else
      match insertIntoPostgres env.pgExec schema table columns chunk with
      | (.error e, _) =>
        ([.fetch offset chunk.length, .loopFailed e], chunk.length, 0)
      | (.ok n, _) =>
        let rest := transferLoopAux env cfg schema table columns f
          (offset + cfg.chunkSize)
        (.fetch offset chunk.length :: .insertedChunk n :: rest.1,
          chunk.length + rest.2.1, n + rest.2.2)

/-- The chunked transfer loop of `replicateTable`, started at offset `0`. -/
def transferLoop (env : TableEnv) (cfg : Config) (schema table : String)
    (columns : List Column) : List Ev × Nat × Nat :=
  transferLoopAux env cfg schema table columns (env.sourceRows.length + 1) 0

/-- `replicateTable` (replicate.js), statement by statement: fetch column
metadata and primary keys (both non-throwing), skip when no columns; run
`ensureTableExists` (a thrown error propagates — `some e` in the second
component); read the source count; when reset is off, compare against the
destination count and either skip (counts match) or truncate (a thrown
error propagates); then run the transfer loop, whose internal failures are
caught.  Returns the event trace and the exception escaping the call. -/
def replicateTable (cfg : Config) (schema table : String) (env : TableEnv) :
    List Ev × Option DbError :=
  let columns := getColumnMetadata env.colCatalog
  let _primaryKeys := getPrimaryKeys env.pkCatalog
  if columns.isEmpty then ([], none)
  else
    match env.ensureTable with
    | .error e => ([.createTable schema table columns], some e)
    | .ok _ =>
      let db2Count := getDb2RowCount env.countCatalog
      if cfg.reset = false then
        let postgresCount := getPostgresRowCount env.pgCount
        if postgresCount = (db2Count : Int) then
          ([.createTable schema table columns], none)
        else
          match env.truncate with
          | .error e =>
            ([.createTable schema table columns, .truncate schema table], some e)
          | .ok _ =>
            let r := transferLoop env cfg schema table columns
            (.createTable schema table columns :: .truncate schema table :: r.1,
              none)
      else
        let r := transferLoop env cfg schema table columns
        (.createTable schema table columns :: r.1, none)

/-- The `for (const { schema, table } of config.replication.tables)` loop of
`replicateAll`: there is no try/catch around `replicateTable`, so an
exception escaping one table ends the whole loop with the remaining tables
unprocessed. -/
def processTables (cfg : Config) :
    List (String × String × TableEnv) → List (List Ev) × Option DbError
  | [] => ([], none)
  | (schema, table, env) :: rest =>
    let r := replicateTable cfg schema table env
    match r.2 with
    | some e => ([r.1], some e)
    | none =>
      let rs := processTables cfg rest
      (r.1 :: rs.1, rs.2)

/-- The outside world's answers during one view's processing. -/
structure ViewEnv where
  /-- `SYSCAT.VIEWS` query outcome consumed by `getViewDefinition`. -/
  viewCatalog : Except DbError (List String)
  /-- Outcome of the `CREATE OR REPLACE VIEW` statement. -/
  pgExecView : Except DbError Unit

/-- `replicateView` (replicate.js): fetch the view definition (non-throwing)
and call `createView` inside a try/catch, logging either success or the
failure message — every exception is caught here, so `replicateView`
always returns normally.  Returns the accumulated log lines. -/
def replicateView (schema viewName : String) (env : ViewEnv) : List String :=
  let viewDefinition := getViewDefinition env.viewCatalog
  match createView env.pgExecView schema viewName viewDefinition with
  | (logs, .ok _) => logs ++ ["View created: " ++ schema ++ "." ++ viewName]
  | (logs, .error e) =>
    logs ++ ["Failed to create view for " ++ schema ++ "." ++ viewName ++
      ": " ++ jsErrMessage e]

/-- The outside world's answers for one whole run. -/
structure RunEnv where
  /-- Combined outcome of the drop-schema / ensure-schema phase (each of
  those re-throws on error, aborting the run). -/
  provision : Except DbError Unit
  /-- Configured tables, in order, with their environments. -/
  tables : List (String × String × TableEnv)
  /-- Configured views, in order, with their environments. -/
  views : List (String × String × ViewEnv)

/-- Outcome of a run. -/
structure RunResult where
  /-- Per-table event traces, in processing order. -/
  tableTraces : List (List Ev)
  /-- Per-view log lines, in processing order. -/
  viewLogs : List (List String)
  /-- The exception escaping `replicateAll`, if any. -/
  escape : Option DbError
deriving DecidableEq, Repr

/-- `replicateAll` (replicate.js): provision schemas (fatal on error), then
all tables — with no catch around `replicateTable`, so a propagating table
error escapes before the views run — then all views (each view's errors are
caught inside `replicateView`). -/
def replicateAll (cfg : Config) (env : RunEnv) : RunResult :=
  match env.provision with
  | .error e => { tableTraces := [], viewLogs := [], escape := some e }
  | .ok _ =>
    let tr := processTables cfg env.tables
    match tr.2 with
    | some e => { tableTraces := tr.1, viewLogs := [], escape := some e }
    | none =>
      { tableTraces := tr.1
        viewLogs := env.views.map (fun v => replicateView v.1 v.2.1 v.2.2)
        escape := none }

/-! ## Trace observers -/

/-- Number of `fetchChunk` invocations recorded in a trace. -/
def countFetches (evs : List Ev) : Nat :=
  (evs.filter (fun e => match e with | .fetch _ _ => true | _ => false)).length

/-- Whether an event mutates destination rows (truncate or insert). -/
def mutatesRows : Ev → Bool
  | .truncate _ _ => true
  | .insertedChunk _ => true
  | .loopFailed _ => true
  | _ => false

/-- The standard-SQL executor: every INSERT succeeds and reports one
affected row per `VALUES` tuple. -/
def pgExecOk : IssuedQuery → Except DbError Nat := fun q => .ok q.tuples

/-! ## Concrete fixtures

Small closed instances used by counterexamples and witnesses. -/

/-- A source row with a single `ID` column. -/
def sampleRow (i : Int) : Row := [("ID", JsValue.vnum i)]

/-- A ten-row source table. -/
def tenRows : List Row := (List.range 10).map (fun i => sampleRow i)

/-- Catalog answer describing the single `ID INTEGER` column. -/
def idColCatalog : Except DbError (List RawCol) :=
  Except.ok [{ colname := "ID", typename := "INTEGER", length := 4 }]

/-- The translated column list of `idColCatalog`. -/
def idCols : List Column := getColumnMetadata idColCatalog

/-- Environment for a healthy ten-row table reload: every database
interaction succeeds. -/
def envTen : TableEnv :=
  { colCatalog := idColCatalog
    pkCatalog := Except.ok ["ID"]
    ensureTable := Except.ok ()
    countCatalog := Except.ok [10]
    sourceRows := tenRows
    pgCount := Except.ok 0
    truncate := Except.ok ()
    fetchFails := fun _ => false
    pgExec := pgExecOk }

/-- Chunk size 3, reset enabled (always reload). -/
def cfgTen : Config := { chunkSize := 3, reset := true }

/-- Environment whose destination table creation fails. -/
def envCreateFails : TableEnv :=
  { envTen with ensureTable := Except.error { msg := "create failed" } }

/-- Environment whose every INSERT fails. -/
def envInsertFails : TableEnv :=
  { envTen with pgExec := fun _ => Except.error { msg := "insert boom" } }

/-- A view environment whose catalog lookup succeeds. -/
def viewEnvOk : ViewEnv :=
  { viewCatalog := Except.ok ["CREATE VIEW V AS SELECT 1"]
    pgExecView := Except.ok () }

/-- Run with a failing first table, a healthy second one and one view:
exhibits that a table-creation error aborts the run. -/
def runCreateFails : RunEnv :=
  { provision := Except.ok ()
    tables := [("s1", "t1", envCreateFails), ("s2", "t2", envTen)]
    views := [("s3", "v3", viewEnvOk)] }

/-- Run whose single table has failing inserts, followed by one view:
exhibits that loop-level errors are contained. -/
def runInsertFails : RunEnv :=
  { provision := Except.ok ()
    tables := [("s1", "t1", envInsertFails)]
    views := [("s3", "v3", viewEnvOk)] }

/-- Reset disabled, chunk size 3. -/
def cfgNoReset : Config := { chunkSize := 3, reset := false }

/-- Environment where source and destination row counts agree (both 10). -/
def envInSync : TableEnv := { envTen with pgCount := Except.ok 10 }

/-- Environment whose column catalog query fails (degrades to no columns). -/
def envNoCols : TableEnv :=
  { envTen with colCatalog := Except.error { msg := "catalog down" } }

/-- The value of a successful `Except`, defaulting to `0`. -/
def exVal : Except DbError Nat → Nat
  | .ok k => k
  | .error _ => 0

/-- `insertIntoPostgres`'s batching loop without the parameter-count guard
(`values.length !== columns.length * batch.length`); used to show that
guard is unreachable. -/
def insLoopNoGuard (pgExec : IssuedQuery → Except DbError Nat)
    (schema table : String) (columns : List Column) :
    List (List Row) → Nat → List IssuedQuery →
    Except DbError Nat × List IssuedQuery
  | [], total, issued => (.ok total, issued)
  | batch :: rest, total, issued =>
    let q := buildInsertQuery schema table columns batch
    if q.params.length = 0 then
      insLoopNoGuard pgExec schema table columns rest total issued
    else
      match pgExec q with
      | .ok rc =>
        insLoopNoGuard pgExec schema table columns rest (total + rc) (issued ++ [q])
      | .error e => (.error e, issued ++ [q])

/-- `AS` occurs (case-insensitively) at position `i` of the character list:
the two characters starting there uppercase to `A`, `S`. -/
def asAt (cs : List Char) (i : Nat) : Prop :=
  ((cs.drop i).take 2).map Char.toUpper = ['A', 'S']

instance (cs : List Char) (i : Nat) : Decidable (asAt cs i) := by
  unfold asAt; exact inferInstance


/-! ## Lemmas about `chunkArray` -/

/-- With enough fuel and a positive size, concatenating the slices gives the
original list back. -/
theorem chunkArrayAux_flatten {α : Type} :
    ∀ (f : Nat) (l : List α) (n : Nat), l.length ≤ f → 0 < n →
      (chunkArrayAux f l n).flatten = l := by
  intro f
  induction f with
  | zero =>
    intro l n hl _
    have : l = [] := List.length_eq_zero.mp (Nat.le_zero.mp hl)
    subst this
    rfl
  | succ f ih =>
    intro l n hl hn
    cases l with
    | nil => rfl
    | cons x xs =>
      have hstep : chunkArrayAux (f + 1) (x :: xs) n =
          (x :: xs).take n :: chunkArrayAux f ((x :: xs).drop n) n := rfl
      rw [hstep]
      have hdrop : ((x :: xs).drop n).length ≤ f := by
        simp only [List.length_drop, List.length_cons] at *
        omega
      simp only [List.flatten_cons, ih ((x :: xs).drop n) n hdrop hn,
        List.take_append_drop]

/-- Every slice produced has length at most `n`. -/
theorem chunkArrayAux_len {α : Type} :
    ∀ (f : Nat) (l : List α) (n : Nat) (c : List α),
      c ∈ chunkArrayAux f l n → c.length ≤ n := by
  intro f
  induction f with
  | zero =>
    intro l n c hc
    cases l with
    | nil => simp [chunkArrayAux] at hc
    | cons x xs => simp [chunkArrayAux] at hc
  | succ f ih =>
    intro l n c hc
    cases l with
    | nil => simp [chunkArrayAux] at hc
    | cons x xs =>
      have hstep : chunkArrayAux (f + 1) (x :: xs) n =
          (x :: xs).take n :: chunkArrayAux f ((x :: xs).drop n) n := rfl
      rw [hstep] at hc
      rcases List.mem_cons.mp hc with h | h
      · subst h
        simp [List.length_take]
      · exact ih _ n c h

/-- With a positive size every slice produced is nonempty. -/
theorem chunkArrayAux_ne_nil {α : Type} :
    ∀ (f : Nat) (l : List α) (n : Nat) (c : List α),
      0 < n → c ∈ chunkArrayAux f l n → c ≠ [] := by
  intro f
  induction f with
  | zero =>
    intro l n c _ hc
    cases l with
    | nil => simp [chunkArrayAux] at hc
    | cons x xs => simp [chunkArrayAux] at hc
  | succ f ih =>
    intro l n c hn hc
    cases l with
    | nil => simp [chunkArrayAux] at hc
    | cons x xs =>
      have hstep : chunkArrayAux (f + 1) (x :: xs) n =
          (x :: xs).take n :: chunkArrayAux f ((x :: xs).drop n) n := rfl
      rw [hstep] at hc
      rcases List.mem_cons.mp hc with h | h
      · subst h
        cases n with
        | zero => omega
        | succ m => simp [List.take_cons]
      · exact ih _ n c hn h

/-- `chunkArray` restores the original list on concatenation. -/
theorem chunkArray_flatten {α : Type} (l : List α) (n : Nat) (hn : 0 < n) :
    (chunkArray l n).flatten = l :=
  chunkArrayAux_flatten l.length l n le_rfl hn

/-! ## Lemmas about `insertIntoPostgres` -/

/-- The flattened parameter list is exactly the rows' values in column
order (definitional). -/
theorem buildInsertQuery_params (schema table : String) (columns : List Column)
    (batch : List Row) :
    (buildInsertQuery schema table columns batch).params =
      (batch.map (fun row => columns.map (fun col => rowGet row col.name))).flatten :=
  rfl

/-- By construction the parameter count is `columns.length * batch.length`. -/
theorem buildInsertQuery_params_length (schema table : String)
    (columns : List Column) (batch : List Row) :
    (buildInsertQuery schema table columns batch).params.length =
      columns.length * batch.length := by
  rw [buildInsertQuery_params]
  induction batch with
  | nil => simp
  | cons r b ih =>
    simp only [List.map_cons, List.flatten_cons, List.length_append,
      List.length_map, List.length_cons, ih]
    ring

/-- The parameter-count guard of `insLoop` never fires: the loop coincides
with its guard-free variant on all inputs. -/
theorem insLoop_eq_noGuard (pgExec : IssuedQuery → Except DbError Nat)
    (schema table : String) (columns : List Column) :
    ∀ (batches : List (List Row)) (total : Nat) (issued : List IssuedQuery),
      insLoop pgExec schema table columns batches total issued =
        insLoopNoGuard pgExec schema table columns batches total issued := by
  intro batches
  induction batches with
  | nil => intro total issued; rfl
  | cons batch rest ih =>
    intro total issued
    have hlen := buildInsertQuery_params_length schema table columns batch
    simp only [insLoop, insLoopNoGuard, hlen]
    by_cases h0 : columns.length * batch.length = 0
    · simp [h0, ih]
    · simp only [h0, if_false, ne_eq, not_true_eq_false, if_neg,
        not_false_eq_true]
      cases pgExec (buildInsertQuery schema table columns batch) with
      | ok rc => simp [ih]
      | error e => simp

/-- When the column list and every batch are nonempty and the executor
always succeeds, `insLoop` executes every batch in order, accumulating the
reported counts and recording every issued query. -/
theorem insLoop_all_ok (pgExec : IssuedQuery → Except DbError Nat)
    (schema table : String) (columns : List Column)
    (hcols : columns ≠ [])
    (hok : ∀ q, ∃ k, pgExec q = Except.ok k) :
    ∀ (batches : List (List Row)) (total : Nat) (issued : List IssuedQuery),
      (∀ b ∈ batches, b ≠ []) →
      insLoop pgExec schema table columns batches total issued =
        (Except.ok (total +
          (batches.map (fun b =>
            exVal (pgExec (buildInsertQuery schema table columns b)))).sum),
         issued ++ batches.map (buildInsertQuery schema table columns)) := by
  intro batches
  induction batches with
  | nil => intro total issued _; simp [insLoop]
  | cons batch rest ih =>
    intro total issued hne
    have hb : batch ≠ [] := hne batch (List.mem_cons_self _ _)
    have hlen := buildInsertQuery_params_length schema table columns batch
    have hpos : (buildInsertQuery schema table columns batch).params.length ≠ 0 := by
      rw [hlen]
      have h1 : columns.length ≠ 0 := fun h => hcols (List.length_eq_zero.mp h)
      have h2 : batch.length ≠ 0 := fun h => hb (List.length_eq_zero.mp h)
      positivity
    obtain ⟨k, hk⟩ := hok (buildInsertQuery schema table columns batch)
    have hrest : ∀ b ∈ rest, b ≠ [] := fun b hbm => hne b (List.mem_cons_of_mem _ hbm)
    have hcond : ¬ ((buildInsertQuery schema table columns batch).params.length ≠
        columns.length * batch.length) := by
      rw [hlen]
      exact fun h => h rfl
    simp only [insLoop]
    rw [if_neg hpos, if_neg hcond, hk]
    dsimp only []
    rw [ih (total + k) (issued ++ [buildInsertQuery schema table columns batch]) hrest]
    have hexk : exVal (pgExec (buildInsertQuery schema table columns batch)) = k := by
      rw [hk]; rfl
    simp [hexk, Nat.add_assoc]

/-- With nonempty columns and batches, an always-failing executor makes the
loop re-raise that error at the first batch. -/
theorem insLoop_first_fail (pgExec : IssuedQuery → Except DbError Nat)
    (schema table : String) (columns : List Column) (e : DbError)
    (hcols : columns ≠ [])
    (hbad : ∀ q, pgExec q = Except.error e) :
    ∀ (batches : List (List Row)) (total : Nat) (issued : List IssuedQuery),
      batches ≠ [] → (∀ b ∈ batches, b ≠ []) →
      (insLoop pgExec schema table columns batches total issued).1 =
        Except.error e := by
  intro batches total issued hbs hne
  cases batches with
  | nil => exact absurd rfl hbs
  | cons batch rest =>
    have hb : batch ≠ [] := hne batch (List.mem_cons_self _ _)
    have hlen := buildInsertQuery_params_length schema table columns batch
    have hpos : (buildInsertQuery schema table columns batch).params.length ≠ 0 := by
      rw [hlen]
      have h1 : columns.length ≠ 0 := fun h => hcols (List.length_eq_zero.mp h)
      have h2 : batch.length ≠ 0 := fun h => hb (List.length_eq_zero.mp h)
      positivity
    have hcond : ¬ ((buildInsertQuery schema table columns batch).params.length ≠
        columns.length * batch.length) := by
      rw [hlen]
      exact fun h => h rfl
    simp only [insLoop]
    rw [if_neg hpos, if_neg hcond, hbad]

/-- `insertIntoPostgres` on a nonempty chunk with nonempty columns and an
always-successful executor: full success result and issued-query list. -/
theorem insertIntoPostgres_ok_pair (pgExec : IssuedQuery → Except DbError Nat)
    (schema table : String) (columns : List Column) (chunk : List Row)
    (hcols : columns ≠ []) (hchunk : chunk ≠ [])
    (hok : ∀ q, ∃ k, pgExec q = Except.ok k) :
    insertIntoPostgres pgExec schema table columns chunk =
      (Except.ok (((chunkArray chunk 1000).map (fun b =>
          exVal (pgExec (buildInsertQuery schema table columns b)))).sum),
       (chunkArray chunk 1000).map (buildInsertQuery schema table columns)) := by
  have hlen0 : chunk.length ≠ 0 := fun h => hchunk (List.length_eq_zero.mp h)
  have hne : ∀ b ∈ chunkArray chunk 1000, b ≠ [] := by
    intro b hb
    exact chunkArrayAux_ne_nil chunk.length chunk 1000 b (by omega) hb
  unfold insertIntoPostgres
  rw [if_neg hlen0, insLoop_all_ok pgExec schema table columns hcols hok
    (chunkArray chunk 1000) 0 [] hne]
  simp

/-- Under the standard-SQL executor the inserted total for a nonempty chunk
is exactly the chunk's length. -/
theorem insertIntoPostgres_pgExecOk (schema table : String)
    (columns : List Column) (chunk : List Row)
    (hcols : columns ≠ []) (hchunk : chunk ≠ []) :
    insertIntoPostgres pgExecOk schema table columns chunk =
      (Except.ok chunk.length,
       (chunkArray chunk 1000).map (buildInsertQuery schema table columns)) := by
  rw [insertIntoPostgres_ok_pair pgExecOk schema table columns chunk hcols hchunk
    (fun q => ⟨q.tuples, rfl⟩)]
  have hsum : ((chunkArray chunk 1000).map (fun b =>
      exVal (pgExecOk (buildInsertQuery schema table columns b)))).sum =
      chunk.length := by
    have hmap : ∀ b : List Row,
        exVal (pgExecOk (buildInsertQuery schema table columns b)) = b.length :=
      fun b => rfl
    calc ((chunkArray chunk 1000).map (fun b =>
          exVal (pgExecOk (buildInsertQuery schema table columns b)))).sum
        = ((chunkArray chunk 1000).map List.length).sum := by
          simp only [hmap]
      _ = ((chunkArray chunk 1000).flatten).length := (List.length_flatten _).symm
      _ = chunk.length := by rw [chunkArray_flatten chunk 1000 (by omega)]
  rw [hsum]

/-! ## Lemmas about `idxOfAS` -/

/-- No `AS` occurrence exists in the empty text. -/
theorem asAt_nil (i : Nat) : ¬ asAt [] i := by
  simp [asAt]

/-- No `AS` occurrence exists in a one-character text. -/
theorem asAt_single (c : Char) (i : Nat) : ¬ asAt [c] i := by
  cases i with
  | zero => simp [asAt]
  | succ j =>
    cases j with
    | zero => simp [asAt]
    | succ k => simp [asAt]

/-- Shifting an occurrence across a leading character. -/
theorem asAt_cons_succ (c : Char) (cs : List Char) (j : Nat) :
    asAt (c :: cs) (j + 1) ↔ asAt cs j := by
  simp [asAt]

/-- An occurrence at position `0` of a two-or-more character text. -/
theorem asAt_zero (c d : Char) (rest : List Char) :
    asAt (c :: d :: rest) 0 ↔ (c.toUpper = 'A' ∧ d.toUpper = 'S') := by
  simp [asAt]

/-- `idxOfAS` computes exactly the first case-insensitive occurrence of
`AS`: `none` means there is none, `some i` means position `i` carries one
and no smaller position does. -/
theorem idxOfAS_spec : ∀ cs : List Char,
    (idxOfAS cs = none → ∀ i, ¬ asAt cs i) ∧
    (∀ i, idxOfAS cs = some i →
      asAt cs i ∧ ∀ j, j < i → ¬ asAt cs j) := by
  intro cs
  induction cs with
  | nil =>
    refine ⟨fun _ i => asAt_nil i, fun i h => ?_⟩
    simp [idxOfAS] at h
  | cons c rest ih =>
    cases rest with
    | nil =>
      refine ⟨fun _ i => asAt_single c i, fun i h => ?_⟩
      simp [idxOfAS] at h
    | cons d rest2 =>
      by_cases hcd : c.toUpper = 'A' ∧ d.toUpper = 'S'
      · have heq : idxOfAS (c :: d :: rest2) = some 0 := by
          simp [idxOfAS, hcd]
        constructor
        · intro hnone
          rw [heq] at hnone
          cases hnone
        · intro i hi
          rw [heq] at hi
          have hi0 : i = 0 := by
            injection hi with h
            exact h.symm
          subst hi0
          exact ⟨(asAt_zero c d rest2).mpr hcd, fun j hj => absurd hj (by omega)⟩
      · have heq : idxOfAS (c :: d :: rest2) =
            (idxOfAS (d :: rest2)).map (fun i => i + 1) := by
          simp [idxOfAS, hcd]
        constructor
        · intro hnone i
          rw [heq] at hnone
          have htail : idxOfAS (d :: rest2) = none := by
            cases h' : idxOfAS (d :: rest2) with
            | none => rfl
            | some k => rw [h'] at hnone; simp at hnone
          cases i with
          | zero => exact fun h => hcd ((asAt_zero c d rest2).mp h)
          | succ j =>
            rw [asAt_cons_succ]
            exact (ih.1 htail) j
        · intro i hi
          rw [heq] at hi
          cases h' : idxOfAS (d :: rest2) with
          | none => rw [h'] at hi; simp at hi
          | some k =>
            rw [h'] at hi
            simp only [Option.map_some'] at hi
            have hik : i = k + 1 := by
              injection hi with h
              exact h.symm
            subst hik
            obtain ⟨hk1, hk2⟩ := ih.2 k h'
            refine ⟨(asAt_cons_succ c _ k).mpr hk1, fun j hj => ?_⟩
            cases j with
            | zero => exact fun h => hcd ((asAt_zero c d rest2).mp h)
            | succ j' =>
              rw [asAt_cons_succ]
              exact hk2 j' (by omega)

/-! ## Lemmas about the transfer loop -/

/-- One step of the ceiling-division recurrence used to count fetches. -/
theorem ceil_div_step (m C : Nat) (hm : 1 ≤ m) (hC : 1 ≤ C) :
    (m + C - 1) / C = (m - C + C - 1) / C + 1 := by
  rcases le_or_lt m C with h | h
  · have h1 : m + C - 1 = (m - 1) + C := by omega
    have h2 : m - C = 0 := by omega
    rw [h1, Nat.add_div_right _ (by omega), h2]
    have h3 : (m - 1) / C = 0 := Nat.div_eq_of_lt (by omega)
    have h4 : (0 + C - 1) / C = 0 := Nat.div_eq_of_lt (by omega)
    rw [h3, h4]
  · have h1 : m + C - 1 = (m - C + C - 1) + C := by omega
    rw [h1, Nat.add_div_right _ (by omega)]

/-- Fetch count and cumulative totals of the transfer loop when every fetch
and insert succeeds: from `offset`, the loop performs
`ceil((N - offset) / C) + 1` fetches (the final one empty), fetches
`N - offset` rows and inserts `N - offset` rows. -/
theorem transferLoopAux_spec (env : TableEnv) (cfg : Config)
    (schema table : String) (columns : List Column)
    (hcols : columns ≠ []) (hC : 1 ≤ cfg.chunkSize)
    (hff : ∀ k, env.fetchFails k = false)
    (hexec : env.pgExec = pgExecOk) :
    ∀ (f offset : Nat), env.sourceRows.length - offset < f →
      countFetches (transferLoopAux env cfg schema table columns f offset).1 =
        (env.sourceRows.length - offset + cfg.chunkSize - 1) / cfg.chunkSize + 1 ∧
      (transferLoopAux env cfg schema table columns f offset).2.1 =
        env.sourceRows.length - offset ∧
      (transferLoopAux env cfg schema table columns f offset).2.2 =
        env.sourceRows.length - offset := by
  intro f
  induction f with
  | zero =>
    intro offset h
    exact absurd h (Nat.not_lt_zero _)
  | succ f ih =>
    intro offset h
    have hfetch : fetchChunk env.sourceRows env.fetchFails cfg.chunkSize offset =
        (env.sourceRows.drop offset).take cfg.chunkSize := by
      rw [fetchChunk, hff offset]
      rfl
    have hlen : ((env.sourceRows.drop offset).take cfg.chunkSize).length =
        min cfg.chunkSize (env.sourceRows.length - offset) := by
      simp [List.length_take, List.length_drop]
    by_cases ho : env.sourceRows.length ≤ offset
    · have hzero : ((env.sourceRows.drop offset).take cfg.chunkSize).length = 0 := by
        omega
      have hres : transferLoopAux env cfg schema table columns (f + 1) offset =
          ([Ev.fetch offset 0], 0, 0) := by
        simp only [transferLoopAux, hfetch, hzero, if_pos]
      rw [hres]
      have hNo : env.sourceRows.length - offset = 0 := by omega
      rw [hNo]
      refine ⟨?_, rfl, rfl⟩
      have : (0 + cfg.chunkSize - 1) / cfg.chunkSize = 0 :=
        Nat.div_eq_of_lt (by omega)
      rw [this]
      rfl
    · push_neg at ho
      have hpos : ((env.sourceRows.drop offset).take cfg.chunkSize).length ≠ 0 := by
        omega
      have hchunk_ne : (env.sourceRows.drop offset).take cfg.chunkSize ≠ [] :=
        fun hh => hpos (by rw [hh]; rfl)
      have hins := insertIntoPostgres_pgExecOk schema table columns
        ((env.sourceRows.drop offset).take cfg.chunkSize) hcols hchunk_ne
      have hres : transferLoopAux env cfg schema table columns (f + 1) offset =
          (Ev.fetch offset ((env.sourceRows.drop offset).take cfg.chunkSize).length ::
            Ev.insertedChunk ((env.sourceRows.drop offset).take cfg.chunkSize).length ::
            (transferLoopAux env cfg schema table columns f
              (offset + cfg.chunkSize)).1,
           ((env.sourceRows.drop offset).take cfg.chunkSize).length +
            (transferLoopAux env cfg schema table columns f
              (offset + cfg.chunkSize)).2.1,
           ((env.sourceRows.drop offset).take cfg.chunkSize).length +
            (transferLoopAux env cfg schema table columns f
              (offset + cfg.chunkSize)).2.2) := by
        simp only [transferLoopAux, hfetch, hexec, hins, if_neg hpos]
      obtain ⟨ihc, iht, ihi⟩ := ih (offset + cfg.chunkSize) (by omega)
      have hfst : (transferLoopAux env cfg schema table columns (f + 1) offset).1 =
          Ev.fetch offset ((env.sourceRows.drop offset).take cfg.chunkSize).length ::
            Ev.insertedChunk ((env.sourceRows.drop offset).take cfg.chunkSize).length ::
            (transferLoopAux env cfg schema table columns f
              (offset + cfg.chunkSize)).1 := by
        rw [hres]
      have hsnd1 : (transferLoopAux env cfg schema table columns (f + 1) offset).2.1 =
          ((env.sourceRows.drop offset).take cfg.chunkSize).length +
            (transferLoopAux env cfg schema table columns f
              (offset + cfg.chunkSize)).2.1 := by
        rw [hres]
      have hsnd2 : (transferLoopAux env cfg schema table columns (f + 1) offset).2.2 =
          ((env.sourceRows.drop offset).take cfg.chunkSize).length +
            (transferLoopAux env cfg schema table columns f
              (offset + cfg.chunkSize)).2.2 := by
        rw [hres]
      have hcount : countFetches
          (Ev.fetch offset ((env.sourceRows.drop offset).take cfg.chunkSize).length ::
            Ev.insertedChunk ((env.sourceRows.drop offset).take cfg.chunkSize).length ::
            (transferLoopAux env cfg schema table columns f
              (offset + cfg.chunkSize)).1) =
          countFetches ((transferLoopAux env cfg schema table columns f
            (offset + cfg.chunkSize)).1) + 1 := by
        simp [countFetches]
      refine ⟨?_, ?_, ?_⟩
      · rw [hfst, hcount, ihc]
        have hstep := ceil_div_step (env.sourceRows.length - offset)
          cfg.chunkSize (by omega) hC
        have harg : env.sourceRows.length - (offset + cfg.chunkSize) =
            env.sourceRows.length - offset - cfg.chunkSize := by omega
        rw [harg, hstep]
      · rw [hsnd1, iht]
        omega
      · rw [hsnd2, ihi]
        omega

/-! ## Lemmas about `replicateTable` and `processTables` -/

/-- When `ensureTableExists` and `truncateTable` succeed, no exception
escapes `replicateTable`, whatever the fetch/insert loop does. -/
theorem replicateTable_snd_none (cfg : Config) (schema table : String)
    (env : TableEnv) (he : env.ensureTable = Except.ok ())
    (ht : env.truncate = Except.ok ()) :
    (replicateTable cfg schema table env).2 = none := by
  simp only [replicateTable, he, ht]
  by_cases hc : (getColumnMetadata env.colCatalog).isEmpty
  · simp [hc]
  · simp only [if_neg hc]
    by_cases hr : cfg.reset = false
    · simp only [if_pos hr]
      by_cases hcnt : getPostgresRowCount env.pgCount =
          ((getDb2RowCount env.countCatalog : Nat) : Int)
      · simp [hcnt]
      · simp [hcnt]
    · simp [if_neg hr]

/-- When every table's `ensureTableExists` and `truncateTable` succeed, the
table loop runs to completion: no escaping exception and one trace per
configured table. -/
theorem processTables_ok (cfg : Config) :
    ∀ entries : List (String × String × TableEnv),
      (∀ x ∈ entries,
        x.2.2.ensureTable = Except.ok () ∧ x.2.2.truncate = Except.ok ()) →
      (processTables cfg entries).2 = none ∧
      (processTables cfg entries).1.length = entries.length := by
  intro entries
  induction entries with
  | nil => intro _; exact ⟨rfl, rfl⟩
  | cons x rest ih =>
    intro hall
    obtain ⟨s, t, env⟩ := x
    obtain ⟨he, ht⟩ := hall (s, t, env) (List.mem_cons_self _ _)
    have hx := replicateTable_snd_none cfg s t env he ht
    obtain ⟨ih1, ih2⟩ := ih (fun y hy => hall y (List.mem_cons_of_mem _ hy))
    simp only [processTables]
    rw [hx]
    dsimp only
    exact ⟨ih1, by simp [ih2]⟩

/-! ## Claim theorems -/

/-- C10: `chunkArray(s, size)` partitions `s` into consecutive slices of at
most `size` elements preserving order (concatenating them restores `s`, the
last slice possibly shorter); `chunkArray [1..10] 3` is
`[[1,2,3],[4,5,6],[7,8,9],[10]]` and `chunkArray [] n = []` for positive
`n`. -/
theorem c10_chunkArray_partition {α : Type} (l : List α) (n : Nat) (hn : 0 < n) :
    (chunkArray l n).flatten = l ∧
    (∀ c ∈ chunkArray l n, c.length ≤ n) ∧
    chunkArray [1, 2, 3, 4, 5, 6, 7, 8, 9, 10] 3 =
      [[1, 2, 3], [4, 5, 6], [7, 8, 9], [10]] ∧
    chunkArray ([] : List Nat) n = [] := by
  refine ⟨chunkArray_flatten l n hn, ?_, by decide, rfl⟩
  intro c hc
  exact chunkArrayAux_len l.length l n c hc

/-- Witness for C10 at `l = [9,8,7,6]`, `n = 3`. -/
theorem c10_witness : 0 < 3 ∧ (chunkArray [9, 8, 7, 6] 3).flatten = [9, 8, 7, 6] :=
  ⟨by decide, (c10_chunkArray_partition [9, 8, 7, 6] 3 (by decide)).1⟩

/-- C9: `formatValue` yields `NULL` for null and for the empty string
regardless of type; for text/character destination types it returns the
trimmed input single-quoted with embedded quotes doubled (in particular
`formatValue("O'Brien", TEXT) = 'O''Brien'`); numeric destination types are
emitted unquoted. -/
theorem c9_formatValue (t tt tn s : String) (n : Int)
    (hs : s ≠ "")
    (htext : includes tt "TEXT" = true ∨ includes tt "CHAR" = true)
    (hn1 : (includes tn "TEXT" || includes tn "CHAR") = false)
    (hn2 : (includes tn "TIMESTAMP" || includes tn "DATE") = false)
    (hn3 : (includes tn "INTEGER" || includes tn "SMALLINT" ||
            includes tn "BIGINT" || includes tn "DECIMAL" ||
            includes tn "NUMERIC" || includes tn "DOUBLE" ||
            includes tn "REAL") = true) :
    formatValue JsValue.vnull t = "NULL" ∧
    formatValue (JsValue.vstr "") t = "NULL" ∧
    formatValue (JsValue.vstr s) tt =
      "'" ++ jsReplaceAll (jsTrim s) "'" "''" ++ "'" ∧
    formatValue (JsValue.vstr "O'Brien") "TEXT" = "'O''Brien'" ∧
    formatValue (JsValue.vnum n) tn = toString n := by
  refine ⟨by simp [formatValue], by simp [formatValue], ?_, by decide, ?_⟩
  · have hcond : (includes tt "TEXT" || includes tt "CHAR") = true := by
      rcases htext with h | h <;> simp [h]
    simp [formatValue, hs, hcond, jsToString]
  · have hneq : ¬ (JsValue.vnum n = JsValue.vnull ∨
        JsValue.vnum n = JsValue.vstr "") := by
      rintro (h | h) <;> cases h
    simp [formatValue, hneq, hn1, hn2, hn3, jsToString]

/-- Witness for C9 at `s = " O'Brien "`, numeric type `INTEGER`. -/
theorem c9_witness :
    (" O'Brien " : String) ≠ "" ∧
    formatValue (JsValue.vstr " O'Brien ") "TEXT" = "'O''Brien'" ∧
    formatValue (JsValue.vnum 7) "INTEGER" = "7" := by
  have h := c9_formatValue "DATE" "TEXT" "INTEGER" " O'Brien " 7 (by decide)
    (Or.inl (by decide)) (by decide) (by decide) (by decide)
  refine ⟨by decide, ?_, ?_⟩
  · rw [h.2.2.1]
    decide
  · rw [h.2.2.2.2]
    rfl

/-- C5: `getViewDefinition` returns the text after the first
case-insensitive occurrence of `AS` — trimmed, with the known cross-schema
reference fully-qualified — and the empty string when the catalog query
fails, matches no row, or the text contains no `AS`. -/
theorem c5_getViewDefinition (e : DbError) (text : String)
    (rest : List String) (i : Nat) :
    getViewDefinition (Except.error e) = "" ∧
    getViewDefinition (Except.ok []) = "" ∧
    ((∀ j, ¬ asAt text.toList j) →
      getViewDefinition (Except.ok (text :: rest)) = "") ∧
    (asAt text.toList i → (∀ j, j < i → ¬ asAt text.toList j) →
      getViewDefinition (Except.ok (text :: rest)) =
        qualifyXref (jsTrim (jsSubstringFrom text (i + 2)))) := by
  refine ⟨rfl, rfl, ?_, ?_⟩
  · intro hno
    by_cases ht : text = ""
    · simp [getViewDefinition, ht]
    · simp only [getViewDefinition, if_neg ht]
      cases hidx : idxOfAS text.toList with
      | none => rfl
      | some k =>
        exact absurd ((idxOfAS_spec text.toList).2 k hidx).1 (hno k)
  · intro hi hmin
    have ht : text ≠ "" := by
      intro h
      subst h
      exact asAt_nil i (by simpa using hi)
    simp only [getViewDefinition, if_neg ht]
    cases hidx : idxOfAS text.toList with
    | none => exact absurd hi ((idxOfAS_spec text.toList).1 hidx i)
    | some k =>
      obtain ⟨hk, hkmin⟩ := (idxOfAS_spec text.toList).2 k hidx
      have hik : k = i := by
        rcases lt_trichotomy k i with h | h | h
        · exact absurd hk (hmin k h)
        · exact h
        · exact absurd hi (hkmin i h)
      rw [hik]

/-- Witness for C5 on a concrete view text whose first `AS` sits at
position 14. -/
theorem c5_witness :
    asAt ("CREATE VIEW V AS SELECT 1").toList 14 ∧
    getViewDefinition (Except.ok ["CREATE VIEW V AS SELECT 1"]) = "SELECT 1" := by
  refine ⟨by decide, ?_⟩
  have h := (c5_getViewDefinition { msg := "x" } "CREATE VIEW V AS SELECT 1"
    [] 14).2.2.2 (by decide) (by decide)
  rw [h]
  decide

/-- C7: the flattened values array of each sub-batch has exactly
`columns.length * batch.length` entries by construction, so `insLoop`
coincides with its variant lacking the parameter-count guard (the guard is
unreachable), and the empty-values skip can only fire when the column list
is empty. -/
theorem c7_guard_unreachable (pgExec : IssuedQuery → Except DbError Nat)
    (schema table : String) (columns : List Column) (batch : List Row)
    (batches : List (List Row)) (total : Nat) (issued : List IssuedQuery)
    (hb : batch ≠ []) :
    insLoop pgExec schema table columns batches total issued =
      insLoopNoGuard pgExec schema table columns batches total issued ∧
    (buildInsertQuery schema table columns batch).params.length =
      columns.length * batch.length ∧
    ((buildInsertQuery schema table columns batch).params = [] ↔
      columns = []) := by
  refine ⟨insLoop_eq_noGuard pgExec schema table columns batches total issued,
    buildInsertQuery_params_length schema table columns batch, ?_, ?_⟩
  · intro hp
    have hlen := buildInsertQuery_params_length schema table columns batch
    rw [hp] at hlen
    rcases Nat.mul_eq_zero.mp hlen.symm with h | h
    · exact List.length_eq_zero.mp h
    · exact absurd (List.length_eq_zero.mp h) hb
  · intro hc
    subst hc
    rw [buildInsertQuery_params]
    simp

/-- Witness for C7: with an empty column list the parameter list is empty
and the guarded and guard-free loops agree. -/
theorem c7_witness :
    insLoop pgExecOk "s" "t" [] [[sampleRow 1]] 0 [] =
      insLoopNoGuard pgExecOk "s" "t" [] [[sampleRow 1]] 0 [] ∧
    (buildInsertQuery "s" "t" [] [sampleRow 1]).params = [] := by
  have h := c7_guard_unreachable pgExecOk "s" "t" [] [sampleRow 1]
    [[sampleRow 1]] 0 [] (List.cons_ne_nil _ _)
  exact ⟨h.1, (h.2.2).mpr rfl⟩

/-- C6: `insertIntoPostgres` splits a chunk into consecutive sub-batches of
at most 1000 rows, issues one parameterized multi-row INSERT per sub-batch
with parameters taken from each row's values in column order, and returns
the sum of the reported affected-row counts; an empty chunk returns `0`
without issuing a query; a database-level failure is re-raised. -/
theorem c6_insertBatch (pgExec : IssuedQuery → Except DbError Nat)
    (schema table : String) (columns : List Column) (chunk : List Row)
    (e : DbError) (pgBad : IssuedQuery → Except DbError Nat)
    (hcols : columns ≠ [])
    (hok : ∀ q, ∃ k, pgExec q = Except.ok k)
    (hbad : ∀ q, pgBad q = Except.error e) :
    insertIntoPostgres pgExec schema table columns [] = (Except.ok 0, []) ∧
    (insertIntoPostgres pgExec schema table columns chunk).2 =
      (chunkArray chunk 1000).map (buildInsertQuery schema table columns) ∧
    (∀ b ∈ chunkArray chunk 1000, b.length ≤ 1000) ∧
    (chunkArray chunk 1000).flatten = chunk ∧
    (∀ b, (buildInsertQuery schema table columns b).params =
      (b.map (fun row => columns.map (fun col => rowGet row col.name))).flatten) ∧
    (insertIntoPostgres pgExec schema table columns chunk).1 =
      Except.ok (((chunkArray chunk 1000).map (fun b =>
        exVal (pgExec (buildInsertQuery schema table columns b)))).sum) ∧
    (chunk ≠ [] → (insertIntoPostgres pgBad schema table columns chunk).1 =
      Except.error e) := by
  have hmembers : ∀ c ∈ chunkArray chunk 1000, c.length ≤ 1000 :=
    fun c hc => chunkArrayAux_len chunk.length chunk 1000 c hc
  have hflat : (chunkArray chunk 1000).flatten = chunk :=
    chunkArray_flatten chunk 1000 (by omega)
  refine ⟨rfl, ?_, hmembers, hflat,
    fun b => buildInsertQuery_params schema table columns b, ?_, ?_⟩
  · by_cases hch : chunk = []
    · subst hch
      rfl
    · rw [insertIntoPostgres_ok_pair pgExec schema table columns chunk
        hcols hch hok]
  · by_cases hch : chunk = []
    · subst hch
      rfl
    · rw [insertIntoPostgres_ok_pair pgExec schema table columns chunk
        hcols hch hok]
  · intro hch
    have hlen0 : chunk.length ≠ 0 := fun h => hch (List.length_eq_zero.mp h)
    have hne : ∀ b ∈ chunkArray chunk 1000, b ≠ [] := by
      intro b hb
      exact chunkArrayAux_ne_nil chunk.length chunk 1000 b (by omega) hb
    have hbs : chunkArray chunk 1000 ≠ [] := by
      cases hc : chunk with
      | nil => exact absurd hc hch
      | cons x xs => exact List.cons_ne_nil _ _
    unfold insertIntoPostgres
    rw [if_neg hlen0]
    exact insLoop_first_fail pgBad schema table columns e hcols hbad
      (chunkArray chunk 1000) 0 [] hbs hne

/-- Witness for C6 on a two-row chunk with the standard executor: one
sub-batch, total inserted 2. -/
theorem c6_witness :
    idCols ≠ [] ∧
    (insertIntoPostgres pgExecOk "s" "t" idCols [sampleRow 1, sampleRow 2]).1 =
      Except.ok 2 := by
  refine ⟨by decide, ?_⟩
  have h := c6_insertBatch pgExecOk "s" "t" idCols [sampleRow 1, sampleRow 2]
    { msg := "boom" } (fun _ => Except.error { msg := "boom" }) (by decide)
    (fun q => ⟨q.tuples, rfl⟩) (fun _ => rfl)
  rw [h.2.2.2.2.2.1]
  rfl

/-- C8: when the `CREATE OR REPLACE VIEW` statement fails, `createView`'s
`catch` block reads `query`, which is `const`-scoped to the `try` block and
not visible there, so a `ReferenceError` is raised instead of the original
database error and the `Failing Query` diagnostic line is never logged; the
caller `replicateView` catches it, so the run continues. -/
theorem c8_createView_referenceError (cfg : Config) (e : DbError)
    (schema viewName viewDefinition : String)
    (vc : Except DbError (List String)) :
    (createView (Except.error e) schema viewName viewDefinition).2 =
      Except.error (JsError.referenceError "query") ∧
    (createView (Except.error e) schema viewName viewDefinition).1 =
      ["Composed Query:\n" ++ composedViewQuery schema viewName viewDefinition,
       "Failed to create view " ++ schema ++ "." ++ viewName ++ ": " ++ e.msg] ∧
    replicateView schema viewName
      { viewCatalog := vc, pgExecView := Except.error e } =
      ["Composed Query:\n" ++
         composedViewQuery schema viewName (getViewDefinition vc),
       "Failed to create view " ++ schema ++ "." ++ viewName ++ ": " ++ e.msg,
       "Failed to create view for " ++ schema ++ "." ++ viewName ++
         ": query is not defined"] ∧
    (replicateAll cfg
      { provision := Except.ok ()
        tables := []
        views := [(schema, viewName,
          { viewCatalog := vc, pgExecView := Except.error e })] }).escape =
      none := by
  have hq : lookupIdent createViewCatchScope "query" =
      Except.error (JsError.referenceError "query") := rfl
  refine ⟨rfl, rfl, ?_, rfl⟩
  simp only [replicateView, createView, hq, jsErrMessage]
  have hmsg : ("query" ++ " is not defined" : String) = "query is not defined" := rfl
  have hone : ∀ x : String,
      x ++ ": " ++ "query is not defined" = x ++ ": query is not defined" := by
    intro x
    rw [String.append_assoc]
    rfl
  rw [hmsg, hone]
  simp

/-- C4: a table whose column-metadata lookup degrades to the empty list
(including on catalog failure) is skipped with no CREATE TABLE, no fetch
and no insert, and the loop proceeds with the remaining entries. -/
theorem c4_skip_no_columns (cfg : Config) (schema table : String)
    (env : TableEnv) (rest : List (String × String × TableEnv))
    (hcols : getColumnMetadata env.colCatalog = []) :
    replicateTable cfg schema table env = ([], none) ∧
    processTables cfg ((schema, table, env) :: rest) =
      (([] : List Ev) :: (processTables cfg rest).1,
        (processTables cfg rest).2) := by
  have hempty : (getColumnMetadata env.colCatalog).isEmpty = true := by
    rw [hcols]
    rfl
  have h1 : replicateTable cfg schema table env = ([], none) := by
    simp [replicateTable, hempty]
  refine ⟨h1, ?_⟩
  simp only [processTables]
  rw [h1]

/-- Witness for C4: a failed catalog query degrades to no columns and the
table is skipped. -/
theorem c4_witness :
    getColumnMetadata envNoCols.colCatalog = [] ∧
    replicateTable cfgTen "s" "t" envNoCols = ([], none) ∧
    processTables cfgTen [("s", "t", envNoCols)] = ([([] : List Ev)], none) := by
  have h := c4_skip_no_columns cfgTen "s" "t" envNoCols [] rfl
  refine ⟨rfl, h.1, ?_⟩
  rw [h.2]
  rfl

/-- C3: with reset disabled and destination count equal to the exact source
count, the table is skipped as in sync — only the idempotent CREATE TABLE
IF NOT EXISTS happens, the reload loop is never entered: no truncate, no
fetch, no insert, and no event mutating destination rows. -/
theorem c3_skip_in_sync (cfg : Config) (schema table : String) (env : TableEnv)
    (hreset : cfg.reset = false)
    (hcols : getColumnMetadata env.colCatalog ≠ [])
    (hensure : env.ensureTable = Except.ok ())
    (hcount : env.countCatalog = Except.ok [env.sourceRows.length])
    (hpg : env.pgCount = Except.ok env.sourceRows.length) :
    replicateTable cfg schema table env =
      ([Ev.createTable schema table (getColumnMetadata env.colCatalog)], none) ∧
    (replicateTable cfg schema table env).1.filter mutatesRows = [] ∧
    countFetches (replicateTable cfg schema table env).1 = 0 := by
  have hempty : (getColumnMetadata env.colCatalog).isEmpty = false := by
    cases hgc : getColumnMetadata env.colCatalog with
    | nil => exact absurd hgc hcols
    | cons a l => rfl
  have hcounts : getPostgresRowCount env.pgCount =
      ((getDb2RowCount env.countCatalog : Nat) : Int) := by
    rw [hpg, hcount]
    simp only [getPostgresRowCount, getDb2RowCount]
    by_cases hN : env.sourceRows.length = 0
    · rw [if_pos hN, hN]
    · rw [if_neg hN]
  have h1 : replicateTable cfg schema table env =
      ([Ev.createTable schema table (getColumnMetadata env.colCatalog)], none) := by
    simp [replicateTable, hempty, hensure, hreset, hcounts]
  refine ⟨h1, ?_, ?_⟩
  · rw [h1]
    rfl
  · rw [h1]
    rfl

/-- Witness for C3: ten rows on both sides, reset off — the table is
skipped. -/
theorem c3_witness :
    cfgNoReset.reset = false ∧
    replicateTable cfgNoReset "s" "t" envInSync =
      ([Ev.createTable "s" "t" idCols], none) := by
  refine ⟨rfl, ?_⟩
  have h := c3_skip_in_sync cfgNoReset "s" "t" envInSync rfl (by decide)
    rfl rfl rfl
  exact h.1

/-- C1 (amended): only exceptions raised inside the chunked fetch/insert
loop are contained — they are caught by the loop's `catch` inside
`replicateTable`, so when every table's `ensureTableExists` and
`truncateTable` succeed, no exception escapes the run regardless of fetch
or insert failures, every configured table is processed and afterwards
every view.  (Exceptions from table creation or truncation propagate out of
`replicateAll` and abort the run — see the counterexample.) -/
theorem c1_loop_errors_contained (cfg : Config) (renv : RunEnv)
    (hprov : renv.provision = Except.ok ())
    (hok : ∀ x ∈ renv.tables,
      x.2.2.ensureTable = Except.ok () ∧ x.2.2.truncate = Except.ok ()) :
    (replicateAll cfg renv).escape = none ∧
    (replicateAll cfg renv).tableTraces.length = renv.tables.length ∧
    (replicateAll cfg renv).viewLogs.length = renv.views.length := by
  obtain ⟨h2, hlen⟩ := processTables_ok cfg renv.tables hok
  have hall : replicateAll cfg renv =
      { tableTraces := (processTables cfg renv.tables).1
        viewLogs := renv.views.map (fun v => replicateView v.1 v.2.1 v.2.2)
        escape := none } := by
    simp only [replicateAll, hprov, h2]
  rw [hall]
  exact ⟨rfl, hlen, by simp⟩

/-- Witness for C1: a run whose single table has every INSERT failing still
finishes with no escaping exception, that table processed and the view
phase reached. -/
theorem c1_witness :
    runInsertFails.provision = Except.ok () ∧
    (replicateAll cfgTen runInsertFails).escape = none ∧
    (replicateAll cfgTen runInsertFails).tableTraces.length = 1 ∧
    (replicateAll cfgTen runInsertFails).viewLogs.length = 1 := by
  have h := c1_loop_errors_contained cfgTen runInsertFails rfl
    (by
      intro x hx
      simp only [runInsertFails, List.mem_singleton] at hx
      subst hx
      exact ⟨rfl, rfl⟩)
  refine ⟨rfl, h.1, ?_, ?_⟩
  · rw [h.2.1]
    rfl
  · rw [h.2.2]
    rfl

/-- Counterexample for C1 as stated: a failure of the destination CREATE
TABLE for the first of two configured tables is *not* caught at the
per-table boundary — it escapes `replicateAll`, so the second table and
the configured view are never processed. -/
theorem c1_counterexample :
    (replicateAll cfgTen runCreateFails).escape = some { msg := "create failed" } ∧
    (replicateAll cfgTen runCreateFails).tableTraces.length = 1 ∧
    runCreateFails.tables.length = 2 ∧
    (replicateAll cfgTen runCreateFails).viewLogs = [] ∧
    runCreateFails.views.length = 1 := by
  refine ⟨rfl, rfl, rfl, rfl, rfl⟩

/-- C2 (amended): for a table with `N` source rows and chunk size `C ≥ 1`,
when every fetch and insert succeeds the transfer loop issues
`ceil(N / C) + 1` chunk fetches — `ceil(N / C)` nonempty ones (the last
possibly short) plus the final empty fetch that terminates the loop — and
the cumulative inserted count across all chunks equals `N` (as does
`totalFetched`); in reset mode `replicateTable` runs exactly this loop
after creating the table. -/
theorem c2_transfer_loop_counts (cfg : Config) (schema table : String)
    (env : TableEnv)
    (hcols : getColumnMetadata env.colCatalog ≠ [])
    (hC : 1 ≤ cfg.chunkSize)
    (hff : ∀ k, env.fetchFails k = false)
    (hexec : env.pgExec = pgExecOk)
    (hensure : env.ensureTable = Except.ok ())
    (hreset : cfg.reset = true) :
    countFetches (transferLoop env cfg schema table
        (getColumnMetadata env.colCatalog)).1 =
      (env.sourceRows.length + cfg.chunkSize - 1) / cfg.chunkSize + 1 ∧
    (transferLoop env cfg schema table (getColumnMetadata env.colCatalog)).2.2 =
      env.sourceRows.length ∧
    (transferLoop env cfg schema table (getColumnMetadata env.colCatalog)).2.1 =
      env.sourceRows.length ∧
    replicateTable cfg schema table env =
      (Ev.createTable schema table (getColumnMetadata env.colCatalog) ::
        (transferLoop env cfg schema table
          (getColumnMetadata env.colCatalog)).1,
       none) := by
  have hmain := transferLoopAux_spec env cfg schema table
    (getColumnMetadata env.colCatalog) hcols hC hff hexec
    (env.sourceRows.length + 1) 0 (by omega)
  have hempty : (getColumnMetadata env.colCatalog).isEmpty = false := by
    cases hgc : getColumnMetadata env.colCatalog with
    | nil => exact absurd hgc hcols
    | cons a l => rfl
  refine ⟨?_, ?_, ?_, ?_⟩
  · have h := hmain.1
    rw [Nat.sub_zero] at h
    exact h
  · have h := hmain.2.2
    rw [Nat.sub_zero] at h
    exact h
  · have h := hmain.2.1
    rw [Nat.sub_zero] at h
    exact h
  · simp [replicateTable, hempty, hensure, hreset, transferLoop]

/-- Witness for C2 at `N = 10`, `C = 3`: five fetches, ten rows inserted. -/
theorem c2_witness :
    countFetches (transferLoop envTen cfgTen "s" "t"
      (getColumnMetadata envTen.colCatalog)).1 = 5 ∧
    (transferLoop envTen cfgTen "s" "t"
      (getColumnMetadata envTen.colCatalog)).2.2 = 10 := by
  have h := c2_transfer_loop_counts cfgTen "s" "t" envTen (by decide)
    (by decide) (fun _ => rfl) rfl rfl rfl
  refine ⟨?_, ?_⟩
  · rw [h.1]
    rfl
  · rw [h.2.1]
    rfl

/-- Counterexample for C2 as stated: at `N = 10`, `C = 3` the loop issues
five fetches, not `ceil(10 / 3) = 4` — the loop only terminates on the
extra, empty fetch. -/
theorem c2_counterexample :
    countFetches (transferLoop envTen cfgTen "s" "t"
      (getColumnMetadata envTen.colCatalog)).1 = 5 ∧
    (envTen.sourceRows.length + cfgTen.chunkSize - 1) / cfgTen.chunkSize = 4 ∧
    countFetches (transferLoop envTen cfgTen "s" "t"
      (getColumnMetadata envTen.colCatalog)).1 ≠
      (envTen.sourceRows.length + cfgTen.chunkSize - 1) / cfgTen.chunkSize := by
  refine ⟨by decide, by decide, by decide⟩
